import Mathlib

/-!
Shallow embedding of the stream-processing blocks of
src/leansdr/generic.h: file_reader, file_writer, file_printer,
file_carrayprinter, itemcounter and decimator.

Each block's run() method is modelled as a pure function.  The
operating-system calls (read, write, lseek) are modelled by passing
their results in as explicit arguments: a finite trace of read()
results and lseek() results for file_reader (whose retry loop may
consume several of them in one invocation), a single write() result
for file_writer, and per-element (snprintf length, write result)
pairs for file_printer.  The pipebuf handles are modelled by the
readable/writable counts and the element lists they expose, and
fatal(msg) is modelled as an outcome constructor carrying the
message string used in the source.
-/

namespace LeanSDR

/-- Result of one read(2) call: either an error (negative return) or a
byte count (0 at end of file). -/
inductive ReadRes : Type
  | err : ReadRes
  | bytes : Nat → ReadRes
deriving DecidableEq, Repr

/-- What one invocation of file_reader::run did.  outOfTrace means the
goto-again loop exhausted the supplied finite trace of descriptor
results without returning: the invocation is still inside the loop. -/
inductive RdOutcome : Type
  | ret : RdOutcome
  | committed : Nat → RdOutcome
  | fatal : String → RdOutcome
  | outOfTrace : RdOutcome
deriving DecidableEq, Repr

/-- Outcome of a file_reader invocation together with the number of
read(2) and lseek(2) calls it performed. -/
structure RdResult : Type where
  outcome : RdOutcome
  reads : Nat
  seeks : Nat
deriving DecidableEq, Repr

/-- The again: loop of file_reader::run (generic.h lines 29-40).
sz is sizeof(T); loop is the public loop flag; the lists hold the
results of successive read(2) calls (each requesting size bytes) and
lseek(fdin, 0, SEEK_SET) calls (true = success, false = (off_t)-1).

  again:
    ssize_t nr = read(fdin, out.wr(), size);
    if ( nr < 0 ) fatal("read");
    if ( !nr && !loop ) return;
    if ( ! nr ) {
      off_t res = lseek(fdin, 0, SEEK_SET);
      if ( res == (off_t)-1 ) fatal("lseek");
      goto again;
    }
    if ( nr % sizeof(T) ) fatal("partial read");
    out.written(nr / sizeof(T));
-/
def file_reader_loop (sz : Nat) (loop : Bool) :
    List ReadRes → List Bool → RdResult
  | [], _ => ⟨.outOfTrace, 0, 0⟩
  | .err :: _, _ => ⟨.fatal ("read"), 1, 0⟩
  | .bytes nr :: rs, seeks =>
      if nr = 0 then
        if loop = false then ⟨.ret, 1, 0⟩
        else
          match seeks with
          | [] => ⟨.outOfTrace, 1, 0⟩
          | ok :: ss =>
              if ok then
                let r := file_reader_loop sz loop rs ss
                ⟨r.outcome, r.reads + 1, r.seeks + 1⟩
              else ⟨.fatal ("lseek"), 1, 1⟩
      else if nr % sz ≠ 0 then ⟨.fatal ("partial read"), 1, 0⟩
      else ⟨.committed (nr / sz), 1, 0⟩

/-- file_reader::run (generic.h lines 26-41).  writable is
out.writable(); size = writable * sizeof(T); if size is zero the
invocation returns before any system call. -/
def file_reader_run (sz : Nat) (loop : Bool) (writable : Nat)
    (reads : List ReadRes) (seeks : List Bool) : RdResult :=
  if writable * sz = 0 then ⟨.ret, 0, 0⟩
  else file_reader_loop sz loop reads seeks

/-- The member state a file_reader carries across invocations (run()
never writes to either field; loop is public and only mutated by an
external controller). -/
structure FileReaderState : Type where
  loop : Bool
  pos : Nat
deriving DecidableEq, Repr

/-- The file_reader constructor (generic.h lines 20-25): initializes
loop(false) and pos(0). -/
def file_reader_init : FileReaderState := ⟨false, 0⟩

/-- What one invocation of file_writer::run did. -/
inductive WrOutcome : Type
  | noop : WrOutcome
  | fatal : String → WrOutcome
  | advanced : Nat → WrOutcome
deriving DecidableEq, Repr

/-- file_writer::run (generic.h lines 57-65).  sz is sizeof(T),
readable is in.readable(), nw the result of the single
write(fdout, in.rd(), size) call (an ssize_t, negative on error).

    int size = in.readable() * sizeof(T);
    if ( ! size ) return;
    int nw = write(fdout, in.rd(), size);
    if ( ! nw ) fatal("pipe");
    if ( nw < 0 ) fatal("write");
    if ( nw % sizeof(T) ) fatal("partial write");
    in.read(nw/sizeof(T));
-/
def file_writer_run (sz readable : Nat) (nw : Int) : WrOutcome :=
  if readable * sz = 0 then .noop
  else if nw = 0 then .fatal ("pipe")
  else if nw < 0 then .fatal ("write")
  else if nw.toNat % sz ≠ 0 then .fatal ("partial write")
  else .advanced (nw.toNat / sz)

/-- What processing one element of file_printer::run did: fatalMsg is
the fatal(...) message if the invocation aborts at this element;
writeLen is the byte count passed to write(fdout, buf, len) when the
write is reached (buf is the 256-byte stack buffer). -/
structure PrintStep : Type where
  fatalMsg : Option String
  writeLen : Option Int
deriving DecidableEq, Repr

/-- The body of the per-element loop of file_printer::run (generic.h
lines 84-90).  len is the return of
snprintf(buf, sizeof(buf), format, (*pin)*scale) — under ISO C the
length the full rendering requires, negative only on obsolete glibc /
encoding error — and nw the return of write(fdout, buf, len).

      char buf[256];
      int len = snprintf(buf, sizeof(buf), format, (*pin)*scale);
      if ( len < 0 ) fatal("obsolete glibc");
      int nw = write(fdout, buf, len);
      if ( nw != len ) fatal("partial write");
-/
def file_printer_step (len nw : Int) : PrintStep :=
  if len < 0 then ⟨some ("obsolete glibc"), none⟩
  else if nw ≠ len then ⟨some ("partial write"), some len⟩
  else ⟨none, some len⟩

/-- The per-element loop of file_printer::run over the readable run:
the first fatal message, if any element triggers one. -/
def file_printer_loop : List (Int × Int) → Option String
  | [] => none
  | (len, nw) :: rest =>
      match (file_printer_step len nw).fatalMsg with
      | some m => some m
      | none => file_printer_loop rest

/-- What one invocation of file_printer::run did. -/
inductive PrOutcome : Type
  | ok : Nat → PrOutcome
  | fatal : String → PrOutcome
deriving DecidableEq, Repr

/-- file_printer::run (generic.h lines 81-92).  elems holds, for each
of the n = in.readable() elements in order, the snprintf length and
the write result it produces; after the loop the input is advanced by
in.read(n). -/
def file_printer_run (elems : List (Int × Int)) : PrOutcome :=
  match file_printer_loop elems with
  | some m => .fatal m
  | none => .ok elems.length

/-- What one invocation of file_carrayprinter::run did: the (re*scale,
im*scale) pairs rendered through the format template, whether the head
and tail templates were rendered and the stream flushed, and the input
advance in.read(n). -/
structure CPrintResult (T : Type) : Type where
  emitted : List (T × T)
  wroteHead : Bool
  wroteTail : Bool
  flushed : Bool
  inAdvance : Nat
deriving DecidableEq, Repr

/-- file_carrayprinter::run (generic.h lines 116-127).  foutOpen is
whether fdopen(_fdout, "w") succeeded at construction (fout != NULL);
input is the readable window of (re, im) pairs.

    int n = in.readable();
    if ( n && fout ) {
      fprintf(fout, head, n);
      complex<T> *pin=in.rd(), *pend=pin+n;
      for ( ; pin<pend; ++pin )
        fprintf(fout, format, pin->re*scale, pin->im*scale);
      fprintf(fout, tail);
      fflush(fout);
    }
    in.read(n);
-/
def file_carrayprinter_run {T : Type} [Mul T] (foutOpen : Bool)
    (scale : T) (input : List (T × T)) : CPrintResult T :=
  let n := input.length
  if n ≠ 0 ∧ foutOpen then
    ⟨input.map (fun p => (p.1 * scale, p.2 * scale)), true, true, true, n⟩
  else
    ⟨[], false, false, false, n⟩

/-- What one invocation of itemcounter::run did: the value written to
*out.wr() if any, the input advance in.read(count) and the output
advance out.written(1). -/
structure CounterResult : Type where
  output : Option Nat
  inAdvance : Nat
  outAdvance : Nat
deriving DecidableEq, Repr

/-- itemcounter::run (generic.h lines 144-151).

    if ( out.writable() < 1 ) return;
    unsigned long count = in.readable();
    if ( ! count ) return;
    *out.wr() = count;
    in.read(count);
    out.written(1);
-/
def itemcounter_run (writable readable : Nat) : CounterResult :=
  if writable < 1 then ⟨none, 0, 0⟩
  else if readable = 0 then ⟨none, 0, 0⟩
  else ⟨some readable, readable, 1⟩

/-- The copy loop of decimator::run:
for ( ; pin<pend; pin+=d, ++pout ) *pout = *pin;  with pend = pin +
count*d and d ≥ 1 it executes exactly count iterations, reading input
offsets pin, pin+d, …, pin+(count-1)*d.  Reading the window at an
offset is modelled by List.getD with a junk default; the safety claim
shows the default is never reached. -/
def decimator_copy {T : Type} (dflt : T) (input : List T) (d : Nat) :
    Nat → Nat → List T
  | _, 0 => []
  | pin, c + 1 =>
      input.getD pin dflt :: decimator_copy dflt input d (pin + d) c

/-- What one invocation of decimator::run did: the elements stored
through pout, the input advance in.read(count*d) and the output
advance out.written(count). -/
structure DecimResult (T : Type) : Type where
  output : List T
  inAdvance : Nat
  outAdvance : Nat
deriving DecidableEq, Repr

/-- decimator::run (generic.h lines 168-175).

    unsigned long count = min(in.readable()/d, out.writable());
    T *pin=in.rd(), *pend=pin+count*d, *pout=out.wr();
    for ( ; pin<pend; pin+=d, ++pout )
      *pout = *pin;
    in.read(count*d);
    out.written(count);
-/
def decimator_run {T : Type} (dflt : T) (d : Nat) (input : List T)
    (writable : Nat) : DecimResult T :=
  let count := min (input.length / d) writable
  ⟨decimator_copy dflt input d 0 count, count * d, count⟩

end LeanSDR

namespace LeanSDR

/-- The copy loop stores exactly count elements. -/
theorem decimator_copy_length {T : Type} (dflt : T) (input : List T) (d : Nat) :
    ∀ (c pin : Nat), (decimator_copy dflt input d pin c).length = c := by
  intro c
  induction c with
  | zero => intro pin; rfl
  | succ c ih =>
      intro pin
      simp [decimator_copy, ih]

/-- The i-th element the copy loop stores is the window element at
offset pin + i*d. -/
theorem decimator_copy_getElem {T : Type} (dflt : T) (input : List T) (d : Nat) :
    ∀ (c pin i : Nat), i < c →
      (decimator_copy dflt input d pin c)[i]? = some (input.getD (pin + i * d) dflt) := by
  intro c
  induction c with
  | zero => intro pin i h; omega
  | succ c ih =>
      intro pin i h
      match i with
      | 0 => simp [decimator_copy]
      | i + 1 =>
          have h' : i < c := by omega
          simp only [decimator_copy, List.getElem?_cons_succ]
          rw [ih (pin + d) i h']
          ring_nf

/-- Every offset the copy loop reads is inside the readable window. -/
theorem decimator_index_lt {len d w i : Nat} (hd : 1 ≤ d)
    (hi : i < min (len / d) w) : i * d < len := by
  have h1 : i + 1 ≤ len / d := Nat.lt_of_lt_of_le (Nat.lt_succ_self i)
    (Nat.succ_le_of_lt (Nat.lt_of_lt_of_le hi (Nat.min_le_left _ _)))
  have h2 : (i + 1) * d ≤ len := (Nat.le_div_iff_mul_le hd).1 h1
  calc i * d < i * d + d := by omega
    _ = (i + 1) * d := by ring
    _ ≤ len := h2

/-- Claim C2: for the decimator with stride d ≥ 1, one invocation computes
n = min(available / d, capacity), copies the input elements at offsets
0, d, …, (n-1)d unchanged and in order to the first n output slots,
advances the input by exactly n*d elements and the output by exactly
n; in particular with d = 3, input [0,1,2,3,4,5,6] and ample capacity
it outputs [0,3], consumes 6 elements and leaves the element 6
buffered. -/
theorem claim_C2_decimator {T : Type} (dflt : T) (d : Nat) (input : List T)
    (writable : Nat) (hd : 1 ≤ d) :
    (decimator_run dflt d input writable).output.length
        = min (input.length / d) writable ∧
    (∀ i, i < min (input.length / d) writable →
        (decimator_run dflt d input writable).output[i]? = input[i * d]?) ∧
    (decimator_run dflt d input writable).inAdvance
        = min (input.length / d) writable * d ∧
    (decimator_run dflt d input writable).outAdvance
        = min (input.length / d) writable ∧
    decimator_run (99 : Nat) 3 [0, 1, 2, 3, 4, 5, 6] 10 = ⟨[0, 3], 6, 2⟩ := by
  refine ⟨decimator_copy_length dflt input d _ 0, ?_, rfl, rfl, by decide⟩
  intro i hi
  have hlt : i * d < input.length := decimator_index_lt hd hi
  have hcopy := decimator_copy_getElem dflt input d
    (min (input.length / d) writable) 0 i hi
  simp only [Nat.zero_add] at hcopy
  show (decimator_copy dflt input d 0 _)[i]? = input[i * d]?
  rw [hcopy, List.getElem?_eq_getElem hlt, List.getD_eq_getElem?_getD,
    List.getElem?_eq_getElem hlt]
  rfl

/-- Claim C2 witness: the theorem applied at d = 3, input [0,…,6],
capacity 10. -/
theorem claim_C2_witness :
    (decimator_run (0 : Nat) 3 [0, 1, 2, 3, 4, 5, 6] 10).inAdvance
        = min (([0, 1, 2, 3, 4, 5, 6] : List Nat).length / 3) 10 * 3 :=
  (claim_C2_decimator 0 3 [0, 1, 2, 3, 4, 5, 6] 10 (by decide)).2.2.1

/-- Claim C9: for the decimator with d ≥ 1, every invocation is total and
in-bounds: with n = min(available / d, capacity), every offset read
from the input window is i*d < available for i < n (so the loop's
getD default is never reached and the last read offset (n-1)*d is
inside the window), the input advance n*d is at most available, and
the n output writes all land at offsets below n ≤ capacity. -/
theorem claim_C9_decimator_safety {T : Type} (dflt : T) (d : Nat)
    (input : List T) (writable : Nat) (hd : 1 ≤ d) :
    (∀ i, i < min (input.length / d) writable → i * d < input.length) ∧
    min (input.length / d) writable * d ≤ input.length ∧
    min (input.length / d) writable ≤ writable ∧
    (∀ i, i < min (input.length / d) writable →
        (decimator_run dflt d input writable).output[i]? =
          some (input.getD (i * d) dflt)) ∧
    (decimator_run dflt d input writable).output.length
        = min (input.length / d) writable := by
  refine ⟨fun i hi => decimator_index_lt hd hi, ?_, Nat.min_le_right _ _, ?_, ?_⟩
  · calc min (input.length / d) writable * d
        ≤ input.length / d * d :=
          Nat.mul_le_mul_right d (Nat.min_le_left _ _)
      _ ≤ input.length := Nat.div_mul_le_self _ _
  · intro i hi
    have hcopy := decimator_copy_getElem dflt input d
      (min (input.length / d) writable) 0 i hi
    simpa using hcopy
  · exact decimator_copy_length dflt input d _ 0

/-- Claim C9 witness: the theorem applied at d = 3, input [0,…,6],
capacity 10. -/
theorem claim_C9_witness :
    (decimator_run (0 : Nat) 3 [0, 1, 2, 3, 4, 5, 6] 10).output.length
        = min (([0, 1, 2, 3, 4, 5, 6] : List Nat).length / 3) 10 :=
  (claim_C9_decimator_safety 0 3 [0, 1, 2, 3, 4, 5, 6] 10 (by decide)).2.2.2.2

/-- Claim C1 counterexample: one invocation of file_reader::run with
looping enabled, against a descriptor whose reads return 0, 0, 0 and
then 1 byte (all rewinds succeeding), performs 4 read calls and 3
lseek calls before committing — more than the single bounded retry
(one seek, one reread) the claim allows per invocation. -/
theorem claim_C1_counterexample :
    file_reader_run 1 true 1 [.bytes 0, .bytes 0, .bytes 0, .bytes 1]
        [true, true, true] = ⟨.committed 1, 4, 3⟩ ∧ (3 : Nat) > 1 := by
  decide

/-- Claim C1 (amended): with looping enabled, every zero-byte read
makes file_reader::run seek to offset 0 and retry the read (the goto
again loop), without any bound on the number of rounds: against a
descriptor that returns zero bytes n times in a row with all seeks
succeeding, one invocation performs all n reads and all n seeks and is
still inside the loop, for every n — so run() does not terminate on an
invocation whose descriptor keeps returning zero bytes after each
rewind.  The loop exits as soon as some read returns a nonzero byte
count, committing the whole elements read. -/
theorem claim_C1_unbounded_retry (sz n : Nat) (hsz : 1 ≤ sz) :
    file_reader_loop sz true (List.replicate n (.bytes 0))
        (List.replicate n true) = ⟨.outOfTrace, n, n⟩ ∧
    file_reader_loop sz true (List.replicate n (.bytes 0) ++ [.bytes sz])
        (List.replicate n true) = ⟨.committed 1, n + 1, n⟩ := by
  have hne : sz ≠ 0 := by omega
  induction n with
  | zero =>
      refine ⟨rfl, ?_⟩
      simp [file_reader_loop, hne, Nat.mod_self, Nat.div_self hsz]
  | succ n ih =>
      obtain ⟨ih1, ih2⟩ := ih
      constructor
      · simp only [List.replicate_succ]
        simp [file_reader_loop, ih1]
      · simp only [List.replicate_succ, List.cons_append]
        simp [file_reader_loop, ih2]

/-- Claim C1 witness: the amended theorem applied at sz = 1, n = 2. -/
theorem claim_C1_witness :
    file_reader_loop 1 true (List.replicate 2 (.bytes 0))
        (List.replicate 2 true) = ⟨.outOfTrace, 2, 2⟩ :=
  (claim_C1_unbounded_retry 1 2 (by decide)).1

/-- Claim C10: the file_reader constructor initializes the public loop
flag to false, and with the flag still false a zero-byte read makes
run() return immediately: one read call, no seek, no retry, no commit
— on that and (the run method never writes the flag, which is a plain
parameter of the model) every subsequent invocation. -/
theorem claim_C10_fresh_reader (sz writable : Nat) (rest : List ReadRes)
    (seeks : List Bool) (h : writable * sz ≠ 0) :
    file_reader_init.loop = false ∧
    file_reader_run sz file_reader_init.loop writable
        (ReadRes.bytes 0 :: rest) seeks = ⟨.ret, 1, 0⟩ := by
  refine ⟨rfl, ?_⟩
  unfold file_reader_run
  rw [if_neg h]
  rfl

/-- Claim C10 witness: the theorem applied at sz = 4, writable = 1,
an empty remainder trace. -/
theorem claim_C10_witness :
    file_reader_init.loop = false ∧
    file_reader_run 4 file_reader_init.loop 1 [ReadRes.bytes 0] []
      = ⟨.ret, 1, 0⟩ :=
  claim_C10_fresh_reader 4 1 [] [] (by decide)

/-- Claim C3: file_printer::run's only guard on the snprintf result is
len < 0 (the obsolete-glibc signalling); a standard snprintf that
truncates returns the full required length, so for an element whose
rendering needs 300 bytes (len = 300 > 256, the text does not fit the
256-byte stack buffer) and whose write returns 300, the element is
processed without any fatal error — write(fdout, buf, 300) is issued
against the 256-byte buffer — and the invocation completes, advancing
the input.  No Format-overflow abort exists in the code. -/
theorem claim_C3_overflow_unchecked :
    file_printer_step 300 300 = ⟨none, some 300⟩ ∧
    file_printer_run [(300, 300)] = PrOutcome.ok 1 ∧
    (300 : Int) > 256 := by
  decide

/-- Claim C4: itemcounter::run with at least one free output slot and
at least one readable input element writes one output element whose
value is the current readable count, advances the input by that whole
count and the output by 1; with no free output slot or an empty input
it is a no-op. -/
theorem claim_C4_itemcounter (writable readable : Nat) :
    (1 ≤ writable → 1 ≤ readable →
        itemcounter_run writable readable = ⟨some readable, readable, 1⟩) ∧
    (writable = 0 ∨ readable = 0 →
        itemcounter_run writable readable = ⟨none, 0, 0⟩) := by
  constructor
  · intro hw hr
    unfold itemcounter_run
    rw [if_neg (by omega), if_neg (by omega)]
  · intro h
    unfold itemcounter_run
    rcases h with h | h
    · rw [if_pos (by omega)]
    · subst h
      by_cases hw : writable < 1
      · rw [if_pos hw]
      · rw [if_neg hw, if_pos rfl]

/-- Claim C4 witness: the theorem applied at 5000 readable elements
with output capacity 1, and at output capacity 0. -/
theorem claim_C4_witness :
    itemcounter_run 1 5000 = ⟨some 5000, 5000, 1⟩ ∧
    itemcounter_run 0 5000 = ⟨none, 0, 0⟩ :=
  ⟨(claim_C4_itemcounter 1 5000).1 (by decide) (by decide),
   (claim_C4_itemcounter 0 5000).2 (Or.inl rfl)⟩

/-- Claim C5 counterexample: file_writer::run with sizeof(T) = 4 and
10 readable elements (a 40-byte write request) whose write returns 8 —
positive and a multiple of the element size, the success path —
advances the input by 2 elements, not by all 10 readable elements. -/
theorem claim_C5_counterexample :
    file_writer_run 4 10 8 = WrOutcome.advanced 2 ∧ (2 : Nat) ≠ 10 := by
  decide

/-- Claim C5 (amended): on the success path (write returns a positive
byte count nw that is a multiple of sizeof(T)) file_writer::run
advances the input by nw/sizeof(T), the number of whole elements
actually written; this equals all readable elements exactly when the
write was complete (nw = readable*sizeof(T)) — a short write that is
still a whole number of elements advances by fewer than readable. -/
theorem claim_C5_success_advance (sz readable : Nat) (nw : Int)
    (hr : readable * sz ≠ 0) (hpos : 0 < nw) (hmod : nw.toNat % sz = 0) :
    file_writer_run sz readable nw = WrOutcome.advanced (nw.toNat / sz) ∧
    (nw = ((readable * sz : Nat) : Int) → nw.toNat / sz = readable) := by
  constructor
  · unfold file_writer_run
    rw [if_neg hr]
    have h1 : ¬nw = 0 := by omega
    have h2 : ¬nw < 0 := by omega
    simp [h1, h2, hmod]
  · intro he
    have hsz : 0 < sz := by
      rcases Nat.eq_zero_or_pos sz with h | h
      · exact absurd (by simp [h]) hr
      · exact h
    have ht : nw.toNat = readable * sz := by
      rw [he]
      exact Int.toNat_natCast _
    rw [ht, Nat.mul_div_cancel _ hsz]

/-- Claim C5 witness: the amended theorem applied at sz = 4,
readable = 10, a complete write of 40 bytes. -/
theorem claim_C5_witness :
    file_writer_run 4 10 40 = WrOutcome.advanced ((40 : Int).toNat / 4) ∧
    ((40 : Int) = ((10 * 4 : Nat) : Int) → (40 : Int).toNat / 4 = 10) :=
  claim_C5_success_advance 4 10 40 (by decide) (by decide) (by decide)

/-- Claim C6: when fdopen failed at construction (fout == NULL),
every invocation of file_carrayprinter::run still advances the input
past all readable elements while rendering nothing — no head, no
element text, no tail, no flush — and no error is signalled (the
result type of the model has no fatal constructor because the code has
no fatal call on this path). -/
theorem claim_C6_silent_discard {T : Type} [Mul T] (scale : T)
    (input : List (T × T)) :
    file_carrayprinter_run false scale input
      = ⟨[], false, false, false, input.length⟩ := by
  simp [file_carrayprinter_run]

/-- Claim C6 witness: the theorem applied at two readable complex
elements. -/
theorem claim_C6_witness :
    file_carrayprinter_run (T := Int) false 2 [(1, 2), (3, 4)]
      = ⟨[], false, false, false, 2⟩ :=
  claim_C6_silent_discard 2 [(1, 2), (3, 4)]

/-- If the again loop commits k elements, then k = nr/sizeof(T) for
the byte count nr of one of the reads in the trace; since every read
requests size = writable*sizeof(T) bytes and read(2) returns at most
its request, k ≤ writable. -/
theorem file_reader_loop_commit_le (sz w : Nat) (loop : Bool) (hsz : 1 ≤ sz) :
    ∀ (reads : List ReadRes) (seeks : List Bool) (k : Nat),
      (∀ nr, ReadRes.bytes nr ∈ reads → nr ≤ w * sz) →
      (file_reader_loop sz loop reads seeks).outcome = .committed k →
      k ≤ w := by
  intro reads
  induction reads with
  | nil => intro seeks k _ h; simp [file_reader_loop] at h
  | cons r rs ih =>
      intro seeks k hmem h
      cases r with
      | err => simp [file_reader_loop] at h
      | bytes nr =>
          simp only [file_reader_loop] at h
          by_cases h0 : nr = 0
          · rw [if_pos h0] at h
            cases loop with
            | false => simp at h
            | true =>
                simp only [Bool.true_eq_false, if_false] at h
                cases seeks with
                | nil => simp at h
                | cons ok ss =>
                    cases ok with
                    | false => simp at h
                    | true =>
                        simp only [if_true] at h
                        exact ih ss k
                          (fun m hm => hmem m (List.mem_cons_of_mem _ hm)) h
          · rw [if_neg h0] at h
            by_cases hm : nr % sz ≠ 0
            · rw [if_pos hm] at h
              simp at h
            · rw [if_neg hm] at h
              simp only [RdOutcome.committed.injEq] at h
              have hle : nr ≤ w * sz := hmem nr (List.mem_cons_self _ _)
              calc k = nr / sz := h.symm
                _ ≤ w * sz / sz := Nat.div_le_div_right hle
                _ = w := Nat.mul_div_cancel _ hsz

/-- The decimator's per-invocation input advance never exceeds the
readable count. -/
theorem decimator_count_mul_le (len d w : Nat) : min (len / d) w * d ≤ len :=
  calc min (len / d) w * d ≤ len / d * d :=
        Nat.mul_le_mul_right d (Nat.min_le_left _ _)
    _ ≤ len := Nat.div_mul_le_self _ _

/-- A non-fatal file_printer invocation advances by exactly the list
length. -/
theorem file_printer_run_ok (elems : List (Int × Int)) (k : Nat)
    (h : file_printer_run elems = PrOutcome.ok k) : k = elems.length := by
  unfold file_printer_run at h
  cases hl : file_printer_loop elems with
  | none => rw [hl] at h; exact (PrOutcome.ok.injEq _ _ ▸ h.symm :)
  | some m => rw [hl] at h; simp at h

/-- Claim C7: no block of generic.h advances a handle past what it
queried in the same invocation, across all six blocks: a file_reader
commit k (each read requested writable*sizeof(T) bytes and, as read(2)
guarantees, returned at most that) satisfies k ≤ writable; a
file_writer advance k = nw/sizeof(T) (write(2) returns at most the
requested readable*sizeof(T) bytes) satisfies k ≤ readable; a
completed file_printer invocation advances the input by exactly the
readable count n it queried; a file_carrayprinter invocation advances
the input by exactly the readable count n it queried; an itemcounter
invocation advances the input by at most its readable count and the
output by at most its writable count; and the decimator's input
advance count*d is at most the readable count and its output advance
count at most the writable count. -/
theorem claim_C7_advance_bounds :
    (∀ (sz w : Nat) (loop : Bool) (reads : List ReadRes)
        (seeks : List Bool) (k : Nat),
        1 ≤ sz →
        (∀ nr, ReadRes.bytes nr ∈ reads → nr ≤ w * sz) →
        (file_reader_run sz loop w reads seeks).outcome = .committed k →
        k ≤ w) ∧
    (∀ (sz r : Nat) (nw : Int) (k : Nat),
        1 ≤ sz → nw ≤ ((r * sz : Nat) : Int) →
        file_writer_run sz r nw = WrOutcome.advanced k → k ≤ r) ∧
    (∀ (elems : List (Int × Int)) (k : Nat),
        file_printer_run elems = PrOutcome.ok k → k = elems.length) ∧
    (∀ (T : Type) [Mul T] (foutOpen : Bool) (scale : T)
        (input : List (T × T)),
        (file_carrayprinter_run foutOpen scale input).inAdvance
          = input.length) ∧
    (∀ (w r : Nat),
        (itemcounter_run w r).inAdvance ≤ r ∧
        (itemcounter_run w r).outAdvance ≤ w) ∧
    (∀ (d w dflt : Nat) (input : List Nat),
        (decimator_run dflt d input w).inAdvance ≤ input.length ∧
        (decimator_run dflt d input w).outAdvance ≤ w) := by
  refine ⟨?_, ?_, file_printer_run_ok, ?_, ?_, ?_⟩
  · intro sz w loop reads seeks k hsz hmem h
    unfold file_reader_run at h
    by_cases hw : w * sz = 0
    · rw [if_pos hw] at h; simp at h
    · rw [if_neg hw] at h
      exact file_reader_loop_commit_le sz w loop hsz reads seeks k hmem h
  · intro sz r nw k hsz hle h
    unfold file_writer_run at h
    by_cases h1 : r * sz = 0
    · rw [if_pos h1] at h; exact absurd h (by simp)
    · rw [if_neg h1] at h
      by_cases h2 : nw = 0
      · rw [if_pos h2] at h; exact absurd h (by simp)
      · rw [if_neg h2] at h
        by_cases h3 : nw < 0
        · rw [if_pos h3] at h; exact absurd h (by simp)
        · rw [if_neg h3] at h
          by_cases h4 : nw.toNat % sz ≠ 0
          · rw [if_pos h4] at h; exact absurd h (by simp)
          · rw [if_neg h4] at h
            have hk : nw.toNat / sz = k := by
              injection h
            have hnw : nw.toNat ≤ r * sz := Int.toNat_le.mpr hle
            calc k = nw.toNat / sz := hk.symm
              _ ≤ r * sz / sz := Nat.div_le_div_right hnw
              _ = r := Nat.mul_div_cancel _ hsz
  · intro T _ foutOpen scale input
    simp only [file_carrayprinter_run]
    split_ifs <;> rfl
  · intro w r
    unfold itemcounter_run
    split_ifs with h1 h2
    · simp
    · simp
    · simp
      omega
  · intro d w dflt input
    exact ⟨decimator_count_mul_le input.length d w, Nat.min_le_right _ _⟩

/-- Claim C7 witness: each conjunct applied at a concrete invocation —
a reader committing 5 of 5 writable elements, a writer whose 40-byte
request writes 8 bytes (2 of 10 readable elements), a printer over one
element, a carrayprinter over one element, an itemcounter over 5000
elements with capacity 1, and the decimator on [0,…,6] with d = 3. -/
theorem claim_C7_witness :
    (5 : Nat) ≤ 5 ∧
    (2 : Nat) ≤ 10 ∧
    (1 : Nat) = ([((3 : Int), (3 : Int))] : List (Int × Int)).length ∧
    (file_carrayprinter_run (T := Int) true 2 [(1, 2)]).inAdvance
      = ([((1 : Int), (2 : Int))] : List (Int × Int)).length ∧
    ((itemcounter_run 1 5000).inAdvance ≤ 5000 ∧
      (itemcounter_run 1 5000).outAdvance ≤ 1) ∧
    ((decimator_run (0 : Nat) 3 [0, 1, 2, 3, 4, 5, 6] 10).inAdvance ≤ 7 ∧
      (decimator_run (0 : Nat) 3 [0, 1, 2, 3, 4, 5, 6] 10).outAdvance ≤ 10) := by
  refine ⟨?_, ?_, ?_, ?_, ?_, ?_⟩
  · exact claim_C7_advance_bounds.1 4 5 false [.bytes 20] [] 5 (by decide)
      (by intro nr hnr; simp at hnr; omega) (by decide)
  · exact claim_C7_advance_bounds.2.1 4 10 8 2 (by decide) (by decide)
      (by decide)
  · exact claim_C7_advance_bounds.2.2.1 [(3, 3)] 1 (by decide)
  · exact claim_C7_advance_bounds.2.2.2.1 Int true 2 [(1, 2)]
  · exact claim_C7_advance_bounds.2.2.2.2.1 1 5000
  · exact claim_C7_advance_bounds.2.2.2.2.2 3 10 0 [0, 1, 2, 3, 4, 5, 6]

/-- Claim C8: a read or write returning a positive byte count that is
not a multiple of sizeof(T) aborts the run — file_reader::run with
fatal("partial read") after exactly one read and no seek, and
file_writer::run with fatal("partial write") — before any buffer
handle is advanced (the fatal outcomes carry no commit), for every
element size and every non-multiple byte count. -/
theorem claim_C8_partial_element :
    (∀ (sz w nr : Nat) (loop : Bool) (rest : List ReadRes)
        (seeks : List Bool),
        w * sz ≠ 0 → nr % sz ≠ 0 →
        file_reader_run sz loop w (ReadRes.bytes nr :: rest) seeks
          = ⟨.fatal ("partial read"), 1, 0⟩) ∧
    (∀ (sz readable : Nat) (nw : Int),
        readable * sz ≠ 0 → 0 < nw → nw.toNat % sz ≠ 0 →
        file_writer_run sz readable nw = WrOutcome.fatal ("partial write")) := by
  constructor
  · intro sz w nr loop rest seeks hw hmod
    have h0 : nr ≠ 0 := fun h => hmod (by simp [h])
    unfold file_reader_run
    rw [if_neg hw]
    simp [file_reader_loop, h0, hmod]
  · intro sz readable nw hr hpos hmod
    unfold file_writer_run
    rw [if_neg hr]
    have h1 : ¬nw = 0 := by omega
    have h2 : ¬nw < 0 := by omega
    simp [h1, h2, hmod]

/-- Claim C8 witness: the theorem applied at sizeof(T) = 4 with a read
of 6 bytes and a write of 6 bytes. -/
theorem claim_C8_witness :
    file_reader_run 4 false 5 [ReadRes.bytes 6] []
      = ⟨.fatal ("partial read"), 1, 0⟩ ∧
    file_writer_run 4 10 6 = WrOutcome.fatal ("partial write") :=
  ⟨claim_C8_partial_element.1 4 5 6 false [] [] (by decide) (by decide),
   claim_C8_partial_element.2 4 10 6 (by decide) (by decide) (by decide)⟩

end LeanSDR
